import Mathlib

/-!
Shallow embedding of the skiing game's core logic, translated from the
JavaScript sources (`src/js/player.js`, `src/js/obstacles.js`, and the
utility file holding `ImprovedNoise` / `generateNoise`).  JavaScript
numbers are modelled as rationals (`ℚ`), `Math.floor` as `Int.floor`,
and the JS `NaN` produced by a `0/0` division as `Option.none`.
-/

namespace Skiing

/-- The fixed permutation table of `ImprovedNoise` (256 entries; the JS
constructor mirrors it into a 512-entry array `p` with
`p[i] = p[i + 256] = permutation[i]`). -/
def permutation : List ℕ :=
  [151, 160, 137, 91, 90, 15, 131, 13, 201, 95, 96, 53, 194, 233, 7, 225,
   140, 36, 103, 30, 69, 142, 8, 99, 37, 240, 21, 10, 23, 190, 6, 148,
   247, 120, 234, 75, 0, 26, 197, 62, 94, 252, 219, 203, 117, 35, 11, 32,
   57, 177, 33, 88, 237, 149, 56, 87, 174, 20, 125, 136, 171, 168, 68, 175,
   74, 165, 71, 134, 139, 48, 27, 166, 77, 146, 158, 231, 83, 111, 229, 122,
   60, 211, 133, 230, 220, 105, 92, 41, 55, 46, 245, 40, 244, 102, 143, 54,
   65, 25, 63, 161, 1, 216, 80, 73, 209, 76, 132, 187, 208, 89, 18, 169,
   200, 196, 135, 130, 116, 188, 159, 86, 164, 100, 109, 198, 173, 186, 3, 64,
   52, 217, 226, 250, 124, 123, 5, 202, 38, 147, 118, 126, 255, 82, 85, 212,
   207, 206, 59, 227, 47, 16, 58, 17, 182, 189, 28, 42, 223, 183, 170, 213,
   119, 248, 152, 2, 44, 154, 163, 70, 221, 153, 101, 155, 167, 43, 172, 9,
   129, 22, 39, 253, 19, 98, 108, 110, 79, 113, 224, 232, 178, 185, 112, 104,
   218, 246, 97, 228, 251, 34, 242, 193, 238, 210, 144, 12, 191, 179, 162, 241,
   81, 51, 145, 235, 249, 14, 239, 107, 49, 192, 214, 31, 181, 199, 106, 157,
   184, 84, 204, 176, 115, 121, 50, 45, 127, 4, 150, 254, 138, 236, 205, 93,
   222, 114, 67, 29, 24, 72, 243, 141, 128, 195, 78, 66, 215, 61, 156, 180]

/-- Lookup in the mirrored 512-entry table `p`.  Every access in `noise`
has index `< 512`, and `p[i] = permutation[i % 256]` there, so reducing
the index mod 256 is an exact embedding of the JS array access. -/
def pTab (i : ℕ) : ℕ := permutation.getD (i % 256) 0

namespace ImprovedNoise

/-- `fade(t) = t*t*t*(t*(t*6-15)+10)` from `ImprovedNoise.fade`. -/
def fade (t : ℚ) : ℚ := t * t * t * (t * (t * 6 - 15) + 10)

/-- `lerp(a, b, t) = a + t*(b-a)` from `ImprovedNoise.lerp`. -/
def lerp (a b t : ℚ) : ℚ := a + t * (b - a)

/-- `grad(hash, x, y, z)` from `ImprovedNoise.grad`: the low 4 bits of
the hash pick one of 12 gradient directions. -/
def grad (hash : ℕ) (x y z : ℚ) : ℚ :=
  let h := hash % 16
  let u := if h < 8 then x else y
  let v := if h < 4 then y else if h = 12 ∨ h = 14 then x else z
  (if h % 2 = 0 then u else -u) + (if h / 2 % 2 = 0 then v else -v)

/-- `ImprovedNoise.noise(x, y, z)`: classic improved Perlin noise over
the fixed permutation table.  `Math.floor(v) & 255` is embedded as
`(⌊v⌋ % 256).toNat` (`Int.emod` with positive modulus agrees with the JS
two's-complement bitwise AND). -/
def noise (x y z : ℚ) : ℚ :=
  let X : ℕ := (⌊x⌋ % 256).toNat
  let Y : ℕ := (⌊y⌋ % 256).toNat
  let Z : ℕ := (⌊z⌋ % 256).toNat
  let xf : ℚ := x - ⌊x⌋
  let yf : ℚ := y - ⌊y⌋
  let zf : ℚ := z - ⌊z⌋
  let u := fade xf
  let v := fade yf
  let w := fade zf
  let A := pTab X + Y
  let AA := pTab A + Z
  let AB := pTab (A + 1) + Z
  let B := pTab (X + 1) + Y
  let BA := pTab B + Z
  let BB := pTab (B + 1) + Z
  lerp
    (lerp
      (lerp (grad (pTab AA) xf yf zf) (grad (pTab BA) (xf - 1) yf zf) u)
      (lerp (grad (pTab AB) xf (yf - 1) zf) (grad (pTab BB) (xf - 1) (yf - 1) zf) u)
      v)
    (lerp
      (lerp (grad (pTab (AA + 1)) xf yf (zf - 1)) (grad (pTab (BA + 1)) (xf - 1) yf (zf - 1)) u)
      (lerp (grad (pTab (AB + 1)) xf (yf - 1) (zf - 1))
        (grad (pTab (BB + 1)) (xf - 1) (yf - 1) (zf - 1)) u)
      v)
    w

end ImprovedNoise

/-- The accumulator of the `for` loop in `generateNoise`:
`(total, frequency, amplitude, maxValue)`. -/
def noiseLoop (x y scale persistence lacunarity : ℚ) :
    ℕ → ℚ × ℚ × ℚ × ℚ → ℚ × ℚ × ℚ × ℚ
  | 0, st => st
  | n + 1, (total, frequency, amplitude, maxValue) =>
      noiseLoop x y scale persistence lacunarity n
        (total + ImprovedNoise.noise (x * frequency / scale) (y * frequency / scale) 0 * amplitude,
         frequency * lacunarity,
         amplitude * persistence,
         maxValue + amplitude)

/-- `generateNoise(x, y, octaves, persistence, lacunarity, scale)` from
the utility file: sums `octaves` Perlin samples and normalizes by the
sum of amplitudes (`total / maxValue`).  The JS loop runs
`max octaves 0` times; when `maxValue = 0` the JS division is `0/0`,
i.e. `NaN`, embedded here as `none`. -/
def generateNoise (x y : ℚ) (octaves : ℤ) (persistence lacunarity scale : ℚ) : Option ℚ :=
  let st := noiseLoop x y scale persistence lacunarity octaves.toNat (0, 1, 1, 0)
  if st.2.2.2 = 0 then none else some (st.1 / st.2.2.2)

/-- A 3-component vector of JS numbers. -/
structure Vec3 where
  x : ℚ
  y : ℚ
  z : ℚ
deriving DecidableEq, Repr

/-- Result of `physics.world.raycastClosest` (external physics engine):
the fields the player controller reads. -/
structure RaycastResult where
  hasHit : Bool
  distance : ℚ
deriving DecidableEq, Repr

/-- The six `Math.random()` draws of `Player.applyRagdollEffect`,
passed in as an oracle. -/
structure RagdollRandoms where
  fx : ℚ
  fy : ℚ
  fz : ℚ
  ax : ℚ
  ay : ℚ
  az : ℚ
deriving DecidableEq, Repr

namespace Player

/-- `this.maxSpeed = 300` from the `Player` constructor. -/
def maxSpeed : ℚ := 300
/-- `this.initialSpeed = 50`. -/
def initialSpeed : ℚ := 50
/-- `this.acceleration = 0.2`. -/
def acceleration : ℚ := 1 / 5
/-- `this.lateralSpeed = 80`. -/
def lateralSpeed : ℚ := 80
/-- `this.jumpForce = 15`. -/
def jumpForce : ℚ := 15
/-- `this.mass = 70`; `applyImpulse` at the body origin changes the
linear velocity by `impulse / mass`. -/
def mass : ℚ := 70

/-- The mutable fields of `Player` that the game logic reads or writes
(mesh/camera/particle fields are render-only and omitted).  The physics
body's state is inlined (`pos`, `vel`, `angVel`); `diedEvents` counts
the `player-died` events dispatched by `die`. -/
structure State where
  speed : ℚ
  health : ℚ
  isDead : Bool
  moveLeft : Bool
  moveRight : Bool
  isJumping : Bool
  isGrounded : Bool
  pos : Vec3
  vel : Vec3
  angVel : Vec3
  diedEvents : ℕ
deriving DecidableEq, Repr

/-- The state after the `Player` constructor: `speed = 0`,
`health = 100`, body at `(0, 5, 0)` with velocity `(0, 0, -50)`.
(`isGrounded` is undefined in JS until the first tick; `false` here.) -/
def initial : State :=
  { speed := 0, health := 100, isDead := false, moveLeft := false, moveRight := false,
    isJumping := false, isGrounded := false, pos := ⟨0, 5, 0⟩, vel := ⟨0, 0, -initialSpeed⟩,
    angVel := ⟨0, 0, 0⟩, diedEvents := 0 }

/-- `Player.reset()`: restores stats, flags and the physics body
(the body is reused, so all other fields survive). -/
def reset (s : State) : State :=
  { s with speed := initialSpeed, health := 100, isDead := false,
           pos := ⟨0, 5, 0⟩, vel := ⟨0, 0, -initialSpeed⟩, angVel := ⟨0, 0, 0⟩,
           moveLeft := false, moveRight := false, isJumping := false }

/-- `Player.applyRagdollEffect()`: one random impulse (applied to the
linear velocity, scaled by `1/mass`) and a random angular velocity. -/
def applyRagdollEffect (s : State) (r : RagdollRandoms) : State :=
  { s with
    vel := ⟨s.vel.x + (r.fx - 1/2) * 20 / mass,
            s.vel.y + r.fy * 10 / mass,
            s.vel.z + r.fz * 10 / mass⟩,
    angVel := ⟨(r.ax - 1/2) * 5, (r.ay - 1/2) * 5, (r.az - 1/2) * 5⟩ }

/-- `Player.die()`: guarded by `isDead`; zeroes the velocity, applies
the ragdoll flourish and dispatches one `player-died` event. -/
def die (s : State) (r : RagdollRandoms) : State :=
  if s.isDead then s
  else
    let s1 := applyRagdollEffect { s with isDead := true, vel := ⟨0, 0, 0⟩ } r
    { s1 with diedEvents := s1.diedEvents + 1 }

/-- `Player.takeDamage(amount)`: unclamped subtraction, then the death
transition when health drops to 0 or below. -/
def takeDamage (s : State) (amount : ℚ) (r : RagdollRandoms) : State :=
  let s1 := { s with health := s.health - amount }
  if s1.health ≤ 0 then die s1 r else s1

/-- The `lateralForce` local of `Player.applyControls`: `if/else if`
gives the left flag precedence. -/
def lateralForce (moveLeft moveRight : Bool) (deltaTime : ℚ) : ℚ :=
  if moveLeft then -lateralSpeed * deltaTime
  else if moveRight then lateralSpeed * deltaTime
  else 0

/-- The lateral impulse `applyControls` hands to `body.applyImpulse`:
`none` when the guard `lateralForce !== 0` rejects the call. -/
def appliedLateralImpulse (moveLeft moveRight : Bool) (deltaTime : ℚ) : Option ℚ :=
  let f := lateralForce moveLeft moveRight deltaTime
  if f ≠ 0 then some f else none

/-- `Player.applyControls(deltaTime)` restricted to its physics effect
(the mesh tilt is render-only). -/
def applyControls (s : State) (deltaTime : ℚ) : State :=
  match appliedLateralImpulse s.moveLeft s.moveRight deltaTime with
  | some f => { s with vel := ⟨s.vel.x + f / mass, s.vel.y, s.vel.z⟩ }
  | none => s

/-- `Player.updatePhysics()`: force-sets the forward velocity, applies
gravity via `applyForce` (deferred to the solver, so returned as an
effect), and recomputes groundedness from the raycast. -/
def updatePhysics (s : State) (ray : RaycastResult) : State × List Vec3 :=
  let s1 := { s with vel := ⟨s.vel.x, s.vel.y, -s.speed⟩ }
  let gravity : Vec3 := ⟨0, -(491/50) * mass, 0⟩
  let grounded := ray.hasHit && decide (ray.distance < 3/5)
  let s2 := { s1 with isGrounded := grounded }
  let s3 := if grounded && s2.isJumping then { s2 with isJumping := false } else s2
  (s3, [gravity])

/-- `Player.checkTerrainCollision()`: boundary fail-safe. -/
def checkTerrainCollision (s : State) (r : RagdollRandoms) : State :=
  if |s.pos.x| > 500 ∨ s.pos.y < -100 then die s r else s

/-- `Player.update(deltaTime)`: the per-tick body, guarded by the dead
flag.  Returns the new state together with the list of forces handed to
`body.applyForce` during the tick. -/
def update (s : State) (deltaTime : ℚ) (ray : RaycastResult) (r : RagdollRandoms) :
    State × List Vec3 :=
  if s.isDead then (s, [])
  else
    let s1 := { s with speed := min maxSpeed (s.speed + acceleration) }
    let s2 := applyControls s1 deltaTime
    let res := updatePhysics s2 ray
    let s3 := checkTerrainCollision res.1 r
    (s3, res.2)

end Player

namespace Terrain

/-- `this.chunkSize = 500` from the `Terrain` constructor. -/
def chunkSize : ℚ := 500
/-- `this.visibleChunks = 5`. -/
def visibleChunks : ℕ := 5

/-- The chunk bookkeeping of `Terrain`: each entry of `terrainChunks`
is the chunk index the mesh was generated for (`generateChunk i ↦ i`;
mesh contents are render-only). -/
structure State where
  currentChunkIndex : ℤ
  terrainChunks : List ℤ
deriving DecidableEq, Repr

/-- `Terrain.generateNextChunk()`: appends the chunk with index
`currentChunkIndex + terrainChunks.length` at the leading edge. -/
def generateNextChunk (s : State) : State :=
  { s with terrainChunks := s.terrainChunks ++ [s.currentChunkIndex + s.terrainChunks.length] }

/-- `Terrain.removeOldestChunk()`: shifts the trailing chunk off and
increments `currentChunkIndex`. -/
def removeOldestChunk (s : State) : State :=
  { currentChunkIndex := s.currentChunkIndex + 1, terrainChunks := s.terrainChunks.tail }

/-- `Terrain.generateInitialChunks()`: chunks `0, …, visibleChunks-1`. -/
def initial : State :=
  { currentChunkIndex := 0,
    terrainChunks := (List.range visibleChunks).map (fun i : ℕ => (i : ℤ)) }

/-- `Terrain.update(playerPosition)`: may generate one chunk ahead and
may evict one chunk behind, in that order. -/
def update (s : State) (playerZ : ℚ) : State :=
  let playerChunkIndex : ℤ := ⌊-playerZ / chunkSize⌋
  let s1 :=
    if s.currentChunkIndex + s.terrainChunks.length ≤ playerChunkIndex + 3 then
      generateNextChunk s
    else s
  if visibleChunks < s1.terrainChunks.length ∧ s1.currentChunkIndex + 2 < playerChunkIndex then
    removeOldestChunk s1
  else s1

/-- The `iceFactor` computed in `Terrain.generateChunk`:
`Math.min(0.8, chunkIndex * 0.1)`. -/
def iceFactor (chunkIndex : ℤ) : ℚ := min (4/5) ((chunkIndex : ℚ) * (1/10))

end Terrain

/-- One pooled obstacle record: the fields `createObstacle` assigns
(`y` is always 0 and omitted; the physics body handle is external).
`type` is the index into `obstacleTypesData`
(0 = tree, 1 = rock, 2 = iceSpike, 3 = logPile). -/
structure Obstacle where
  x : ℚ
  z : ℚ
  type : ℕ
  collisionRadius : ℚ
  damageMultiplier : ℚ
  isAvoidedCounted : Bool
deriving DecidableEq, Repr

/-- `(collisionRadius, damageMultiplier)` for tree, rock, iceSpike,
logPile from `initObstacleTypes`. -/
def obstacleTypesData : List (ℚ × ℚ) := [(6/5, 1), (9/5, 6/5), (1, 3/2), (2, 4/5)]

/-- The five `Math.random()` draws one call of `generateObstacle` can
consume, passed in as an oracle (each in `[0, 1)` in JS, but nothing
below depends on that). -/
structure SpawnOracle where
  spawnRoll : ℚ
  xRoll : ℚ
  typeRoll : ℚ
  escalateRoll : ℚ
  spacingRoll : ℚ
deriving DecidableEq, Repr

namespace ObstacleManager

/-- `this.minDistanceBetweenObstacles = 20`. -/
def minDistanceBetweenObstacles : ℚ := 20
/-- The `removalDistance` local of `removeDistantObstacles`. -/
def removalDistance : ℚ := 50

/-- The mutable fields of `ObstacleManager` the game logic touches. -/
structure State where
  activeObstacles : List Obstacle
  obstaclePool : List Obstacle
  obstacleSpawnFrequency : ℚ
  maxObstaclesOnScreen : ℤ
  obstaclesAvoided : ℕ
  nextObstacleZ : ℚ
  obstacleSpread : ℚ
  difficultyLevel : ℤ
deriving DecidableEq, Repr

/-- The constructor's initial settings. -/
def initial : State :=
  { activeObstacles := [], obstaclePool := [], obstacleSpawnFrequency := 1/5,
    maxObstaclesOnScreen := 20, obstaclesAvoided := 0, nextObstacleZ := -100,
    obstacleSpread := 30, difficultyLevel := 1 }

/-- `1 + Math.floor(distanceTraveled / 500)` from `updateDifficulty`. -/
def levelOfDistance (d : ℚ) : ℤ := 1 + ⌊d / 500⌋

/-- `0.2 + (difficultyLevel * 0.05)`. -/
def spawnFrequencyOf (L : ℤ) : ℚ := 1/5 + (L : ℚ) * (1/20)

/-- `20 + (difficultyLevel * 2)`. -/
def maxObstaclesOf (L : ℤ) : ℤ := 20 + L * 2

/-- `30 + (difficultyLevel * 5)`. -/
def obstacleSpreadOf (L : ℤ) : ℚ := 30 + (L : ℚ) * 5

/-- `ObstacleManager.updateDifficulty(playerPosition)`: recomputes the
level from `Math.abs(playerPosition.z)` and the derived tunables. -/
def updateDifficulty (s : State) (playerZ : ℚ) : State :=
  let L := levelOfDistance |playerZ|
  { s with difficultyLevel := L,
           obstacleSpawnFrequency := spawnFrequencyOf L,
           maxObstaclesOnScreen := maxObstaclesOf L,
           obstacleSpread := obstacleSpreadOf L }

/-- `ObstacleManager.removeDistantObstacles(playerPosition)`: obstacles
more than `removalDistance` behind are recycled into the pool. -/
def removeDistantObstacles (s : State) (playerZ : ℚ) : State :=
  let recycled := s.activeObstacles.filter (fun o => decide (o.z > playerZ + removalDistance))
  { s with
    activeObstacles := s.activeObstacles.filter (fun o => !decide (o.z > playerZ + removalDistance)),
    obstaclePool := s.obstaclePool ++ recycled }

/-- `ObstacleManager.getObstacleFromPool(type)`: linear scan for a
matching type; removes the hit from the pool. -/
def getObstacleFromPool (s : State) (t : ℕ) : Option Obstacle × State :=
  match s.obstaclePool.findIdx? (fun o => o.type == t) with
  | some i => (s.obstaclePool.get? i, { s with obstaclePool := s.obstaclePool.eraseIdx i })
  | none => (none, s)

/-- `ObstacleManager.createObstacle(typeData, x, z)`: reuses a pooled
instance or builds a fresh one; either way every field of the record is
(re)assigned here, in particular `isAvoidedCounted = false`. -/
def createObstacle (s : State) (typeIndex : ℕ) (x z : ℚ) : State × Obstacle :=
  let res := getObstacleFromPool s typeIndex
  let typeData := obstacleTypesData.getD typeIndex (0, 0)
  (res.2,
   { x := x, z := z, type := typeIndex, collisionRadius := typeData.1,
     damageMultiplier := typeData.2, isAvoidedCounted := false })

/-- `ObstacleManager.generateObstacle(playerPosition)`: Bernoulli spawn
gate, minimum-spacing gate, lateral placement, difficulty-weighted type
choice, then `createObstacle` and the stochastic advance of
`nextObstacleZ`. -/
def generateObstacle (s : State) (playerZ : ℚ) (o : SpawnOracle) : State :=
  if s.obstacleSpawnFrequency < o.spawnRoll then s
  else
    let zDistance := playerZ - s.nextObstacleZ
    if |zDistance| < minDistanceBetweenObstacles then s
    else
      let xPosition := (o.xRoll * 2 - 1) * s.obstacleSpread
      let typeIndex0 : ℕ := (⌊o.typeRoll * (obstacleTypesData.length : ℚ)⌋).toNat
      let typeIndex :=
        if o.escalateRoll < (1/5) * (s.difficultyLevel : ℚ) then
          min (typeIndex0 + 1) (obstacleTypesData.length - 1)
        else typeIndex0
      let res := createObstacle s typeIndex xPosition s.nextObstacleZ
      { res.1 with
        activeObstacles := res.1.activeObstacles ++ [res.2],
        nextObstacleZ := res.1.nextObstacleZ - minDistanceBetweenObstacles * (1 + o.spacingRoll * (1/2)) }

/-- One step of the `forEach` in `checkObstaclesPassed`: accumulates
the rewritten obstacle list and the number of newly counted ones. -/
def checkPassedStep (playerZ : ℚ) (acc : List Obstacle × ℕ) (o : Obstacle) :
    List Obstacle × ℕ :=
  if o.isAvoidedCounted = false ∧ o.z > playerZ + 5 then
    (acc.1 ++ [{ o with isAvoidedCounted := true }], acc.2 + 1)
  else (acc.1 ++ [o], acc.2)

/-- `ObstacleManager.checkObstaclesPassed(playerPosition)`: flags every
passed, not-yet-counted obstacle and bumps `obstaclesAvoided` once per
newly flagged instance. -/
def checkObstaclesPassed (s : State) (playerZ : ℚ) : State :=
  let res := s.activeObstacles.foldl (checkPassedStep playerZ) ([], 0)
  { s with activeObstacles := res.1, obstaclesAvoided := s.obstaclesAvoided + res.2 }

/-- `ObstacleManager.getObstaclesAvoided()`. -/
def getObstaclesAvoided (s : State) : ℕ := s.obstaclesAvoided

/-- `ObstacleManager.update(playerPosition, deltaTime)`: difficulty,
eviction, capped spawn, scoring — in source order. -/
def update (s : State) (playerZ : ℚ) (o : SpawnOracle) : State :=
  let s1 := updateDifficulty s playerZ
  let s2 := removeDistantObstacles s1 playerZ
  let s3 :=
    if (s2.activeObstacles.length : ℤ) < s2.maxObstaclesOnScreen then
      generateObstacle s2 playerZ o
    else s2
  checkObstaclesPassed s3 playerZ

end ObstacleManager

/-! Auxiliary definitions used only to state and prove properties. -/

/-- A fixed value for the ragdoll random oracle. -/
def ragdoll0 : RagdollRandoms := ⟨0, 0, 0, 0, 0, 0⟩

/-- A raycast that hits nothing (airborne player). -/
def rayMiss : RaycastResult := ⟨false, 0⟩

/-- A player state that is already dead (used to exercise the dead
guard of `Player.update`). -/
def deadPlayer : Player.State := { Player.initial with isDead := true }

/-- One game tick of the player with a fixed 1/60 s step, a missing
raycast and the zero random oracle. -/
def playerTick (s : Player.State) : Player.State :=
  (Player.update s (1/60) rayMiss ragdoll0).1

/-- The contiguous ascending index list `[c, c+1, …, c+n-1]`. -/
def chunkRange (c : ℤ) (n : ℕ) : List ℤ := (List.range n).map (fun i : ℕ => c + i)

/-- The terrain streamer's window invariant: the chunk list is the
contiguous ascending range starting at `currentChunkIndex`, and its
length is `visibleChunks` or `visibleChunks + 1`. -/
def Terrain.goodWindow (s : Terrain.State) : Prop :=
  s.terrainChunks = chunkRange s.currentChunkIndex s.terrainChunks.length ∧
  Terrain.visibleChunks ≤ s.terrainChunks.length ∧
  s.terrainChunks.length ≤ Terrain.visibleChunks + 1

/-- What `checkObstaclesPassed` does to one obstacle record. -/
def ObstacleManager.markPassed (playerZ : ℚ) (o : Obstacle) : Obstacle :=
  if o.isAvoidedCounted = false ∧ o.z > playerZ + 5 then { o with isAvoidedCounted := true }
  else o

/-- Whether one obstacle is newly counted by `checkObstaclesPassed`. -/
def ObstacleManager.newlyPassed (playerZ : ℚ) (o : Obstacle) : Bool :=
  decide (o.isAvoidedCounted = false ∧ o.z > playerZ + 5)

end Skiing

namespace Skiing

/-! ## C2 — lateral input handling -/

/-- C2 counterexample: with both flags set and `deltaTime = 0.1` the
controller does apply a lateral impulse (of `-8`), contradicting the
claim that no impulse is applied when both flags are set. -/
theorem applyControls_both_flags_impulse_applied :
    Player.appliedLateralImpulse true true (1/10) = some (-8) := by
  simp only [Player.appliedLateralImpulse, Player.lateralForce, Player.lateralSpeed]
  norm_num

/-- C2 (amended): when both lateral flags are set the `if/else if`
chain gives the left flag precedence, so the controller behaves exactly
as if only `left` were pressed — the same impulse is applied, not none. -/
theorem applyControls_both_flags_left_precedence (deltaTime : ℚ) :
    Player.appliedLateralImpulse true true deltaTime =
      Player.appliedLateralImpulse true false deltaTime := by
  rfl

/-! ## C3 — octaves ≤ 0 in generateNoise -/

/-- C3: with `octaves ≤ 0` the loop body of `generateNoise` never runs,
so `maxValue` stays `0` and the function silently evaluates `0/0`
(JS `NaN`, embedded as `none`) — there is no InvalidArgument rejection. -/
theorem generateNoise_nonpositive_octaves_nan (x y : ℚ) (octaves : ℤ)
    (persistence lacunarity scale : ℚ) (h : octaves ≤ 0) :
    generateNoise x y octaves persistence lacunarity scale = none := by
  unfold generateNoise
  rw [Int.toNat_of_nonpos h]
  rfl

/-- C3 witness: the theorem at `octaves = 0`. -/
theorem generateNoise_nonpositive_octaves_nan_witness :
    (0 : ℤ) ≤ 0 ∧ generateNoise 1 2 0 (1/2) 2 100 = none :=
  ⟨le_refl 0, generateNoise_nonpositive_octaves_nan 1 2 0 (1/2) 2 100 (le_refl 0)⟩

/-! ## C6 — health bounds -/

/-- `die` never touches health. -/
lemma die_health (t : Player.State) (r : RagdollRandoms) :
    (Player.die t r).health = t.health := by
  simp only [Player.die, Player.applyRagdollEffect]
  split_ifs <;> rfl

/-- `takeDamage` is an unclamped subtraction on health. -/
lemma takeDamage_health (s : Player.State) (amount : ℚ) (r : RagdollRandoms) :
    (Player.takeDamage s amount r).health = s.health - amount := by
  simp only [Player.takeDamage]
  split_ifs with h
  · rw [die_health]
  · rfl

/-- `applyControls` never touches health. -/
lemma applyControls_health (s : Player.State) (deltaTime : ℚ) :
    (Player.applyControls s deltaTime).health = s.health := by
  simp only [Player.applyControls]
  rcases Player.appliedLateralImpulse s.moveLeft s.moveRight deltaTime with _ | f <;> rfl

/-- `updatePhysics` never touches health. -/
lemma updatePhysics_health (s : Player.State) (ray : RaycastResult) :
    ((Player.updatePhysics s ray).1).health = s.health := by
  simp only [Player.updatePhysics]
  split_ifs <;> rfl

/-- `checkTerrainCollision` never touches health. -/
lemma checkTerrainCollision_health (s : Player.State) (r : RagdollRandoms) :
    (Player.checkTerrainCollision s r).health = s.health := by
  simp only [Player.checkTerrainCollision]
  split_ifs with h
  · rw [die_health]
  · rfl

/-- `update` never touches health (damage only enters through the
orchestrator's collision loop, i.e. `takeDamage`). -/
lemma update_health (s : Player.State) (deltaTime : ℚ) (ray : RaycastResult)
    (r : RagdollRandoms) : (Player.update s deltaTime ray r).1.health = s.health := by
  simp only [Player.update]
  split_ifs with h
  · rfl
  · rw [checkTerrainCollision_health, updatePhysics_health, applyControls_health]

/-- C6 counterexample: two `takeDamage` calls of 55 drive health from
100 to −10, so health does leave the claimed range `[0, 100]` (there is
no lower clamp; `die` does not restore health to 0). -/
theorem health_below_zero :
    (Player.takeDamage (Player.takeDamage Player.initial 55 ragdoll0) 55 ragdoll0).health = -10 ∧
    (-10 : ℚ) < 0 := by
  constructor
  · rw [takeDamage_health, takeDamage_health]
    norm_num [Player.initial]
  · norm_num

/-- C6 (amended): health is monotonically non-increasing under
`takeDamage` with a non-negative amount and never exceeds 100 once it
is at most 100, and neither `die` nor `update` changes health; but
`takeDamage` has no lower clamp, so health can drop below 0. -/
theorem health_upper_bound_monotone (s : Player.State) (amount : ℚ) (r : RagdollRandoms)
    (deltaTime : ℚ) (ray : RaycastResult) (h : 0 ≤ amount) :
    (Player.takeDamage s amount r).health ≤ s.health ∧
    (s.health ≤ 100 → (Player.takeDamage s amount r).health ≤ 100) ∧
    (Player.die s r).health = s.health ∧
    (Player.update s deltaTime ray r).1.health = s.health := by
  rw [takeDamage_health, die_health, update_health]
  refine ⟨by linarith, fun h100 => by linarith, rfl, rfl⟩

/-- C6 witness: the amended theorem at a concrete state and damage. -/
theorem health_upper_bound_monotone_witness :
    (0 : ℚ) ≤ 1 ∧
    ((Player.takeDamage Player.initial 1 ragdoll0).health ≤ Player.initial.health ∧
     (Player.initial.health ≤ 100 → (Player.takeDamage Player.initial 1 ragdoll0).health ≤ 100) ∧
     (Player.die Player.initial ragdoll0).health = Player.initial.health ∧
     (Player.update Player.initial 1 rayMiss ragdoll0).1.health = Player.initial.health) :=
  ⟨by norm_num, health_upper_bound_monotone Player.initial 1 ragdoll0 1 rayMiss (by norm_num)⟩

/-! ## C7 — death idempotence -/

/-- C7: starting from a live player, the death transition is
idempotent — the second `die` call changes nothing at all — and exactly
one `player-died` event is dispatched across both calls; health is
untouched. -/
theorem die_idempotent_single_signal (s : Player.State) (r1 r2 : RagdollRandoms)
    (h : s.isDead = false) :
    Player.die (Player.die s r1) r2 = Player.die s r1 ∧
    (Player.die s r1).diedEvents = s.diedEvents + 1 ∧
    (Player.die s r1).isDead = true ∧
    (Player.die s r1).health = s.health := by
  unfold Player.die Player.applyRagdollEffect
  simp [h]

/-- C7 witness: the theorem at the initial (live) player state. -/
theorem die_idempotent_single_signal_witness :
    Player.initial.isDead = false ∧
    (Player.die (Player.die Player.initial ragdoll0) ragdoll0 = Player.die Player.initial ragdoll0 ∧
     (Player.die Player.initial ragdoll0).diedEvents = Player.initial.diedEvents + 1 ∧
     (Player.die Player.initial ragdoll0).isDead = true ∧
     (Player.die Player.initial ragdoll0).health = Player.initial.health) :=
  ⟨rfl, die_idempotent_single_signal Player.initial ragdoll0 ragdoll0 rfl⟩

/-! ## C10 — update is a no-op once dead -/

/-- C10: once the dead flag is set, `Player.update` returns the state
unchanged and applies no force to the physics body (hence no speed
ramp, no lateral impulse, no gravity, no boundary-death check). -/
theorem update_noop_when_dead (s : Player.State) (deltaTime : ℚ) (ray : RaycastResult)
    (r : RagdollRandoms) (h : s.isDead = true) :
    Player.update s deltaTime ray r = (s, []) := by
  unfold Player.update
  simp [h]

/-- C10 witness: the theorem at a concrete dead state. -/
theorem update_noop_when_dead_witness :
    deadPlayer.isDead = true ∧ Player.update deadPlayer 1 rayMiss ragdoll0 = (deadPlayer, []) :=
  ⟨rfl, update_noop_when_dead deadPlayer 1 rayMiss ragdoll0 rfl⟩

/-! ## C8 — difficulty curve -/

/-- C8: the difficulty level is `1 + ⌊|z|/500⌋` of the absolute
distance, the derived tunables follow the claimed formulas, and the
level and every derived tunable (spawn frequency, max obstacles,
spread, ice probability) are monotonically non-decreasing in their
inputs. -/
theorem difficulty_curve_monotone (s : ObstacleManager.State) (z d1 d2 : ℚ)
    (L1 L2 i1 i2 : ℤ) (hd : d1 < d2) (hL : L1 ≤ L2) (hi : i1 ≤ i2) :
    (ObstacleManager.updateDifficulty s z).difficultyLevel = 1 + ⌊|z| / 500⌋ ∧
    (ObstacleManager.updateDifficulty s z).obstacleSpawnFrequency =
      1/5 + ((1 + ⌊|z| / 500⌋ : ℤ) : ℚ) * (1/20) ∧
    (ObstacleManager.updateDifficulty s z).maxObstaclesOnScreen = 20 + (1 + ⌊|z| / 500⌋) * 2 ∧
    (ObstacleManager.updateDifficulty s z).obstacleSpread =
      30 + ((1 + ⌊|z| / 500⌋ : ℤ) : ℚ) * 5 ∧
    ObstacleManager.levelOfDistance d1 ≤ ObstacleManager.levelOfDistance d2 ∧
    ObstacleManager.spawnFrequencyOf L1 ≤ ObstacleManager.spawnFrequencyOf L2 ∧
    ObstacleManager.maxObstaclesOf L1 ≤ ObstacleManager.maxObstaclesOf L2 ∧
    ObstacleManager.obstacleSpreadOf L1 ≤ ObstacleManager.obstacleSpreadOf L2 ∧
    Terrain.iceFactor i1 ≤ Terrain.iceFactor i2 := by
  have hLq : (L1 : ℚ) ≤ (L2 : ℚ) := by exact_mod_cast hL
  have hiq : (i1 : ℚ) ≤ (i2 : ℚ) := by exact_mod_cast hi
  refine ⟨rfl, rfl, rfl, rfl, ?_, ?_, ?_, ?_, ?_⟩
  · unfold ObstacleManager.levelOfDistance
    have : ⌊d1 / 500⌋ ≤ ⌊d2 / 500⌋ := by
      apply Int.floor_le_floor
      linarith
    omega
  · unfold ObstacleManager.spawnFrequencyOf
    linarith
  · unfold ObstacleManager.maxObstaclesOf
    omega
  · unfold ObstacleManager.obstacleSpreadOf
    linarith
  · unfold Terrain.iceFactor
    exact min_le_min (le_refl _) (by linarith)

/-- C8 witness: the theorem at concrete distances, levels and chunk
indices. -/
theorem difficulty_curve_monotone_witness :
    (0 : ℚ) < 1 ∧ (0 : ℤ) ≤ 1 ∧ (2 : ℤ) ≤ 3 ∧
    ((ObstacleManager.updateDifficulty ObstacleManager.initial 0).difficultyLevel =
        1 + ⌊|(0 : ℚ)| / 500⌋ ∧
     (ObstacleManager.updateDifficulty ObstacleManager.initial 0).obstacleSpawnFrequency =
        1/5 + ((1 + ⌊|(0 : ℚ)| / 500⌋ : ℤ) : ℚ) * (1/20) ∧
     (ObstacleManager.updateDifficulty ObstacleManager.initial 0).maxObstaclesOnScreen =
        20 + (1 + ⌊|(0 : ℚ)| / 500⌋) * 2 ∧
     (ObstacleManager.updateDifficulty ObstacleManager.initial 0).obstacleSpread =
        30 + ((1 + ⌊|(0 : ℚ)| / 500⌋ : ℤ) : ℚ) * 5 ∧
     ObstacleManager.levelOfDistance 0 ≤ ObstacleManager.levelOfDistance 1 ∧
     ObstacleManager.spawnFrequencyOf 0 ≤ ObstacleManager.spawnFrequencyOf 1 ∧
     ObstacleManager.maxObstaclesOf 0 ≤ ObstacleManager.maxObstaclesOf 1 ∧
     ObstacleManager.obstacleSpreadOf 0 ≤ ObstacleManager.obstacleSpreadOf 1 ∧
     Terrain.iceFactor 2 ≤ Terrain.iceFactor 3) :=
  ⟨by norm_num, by norm_num, by norm_num,
   difficulty_curve_monotone ObstacleManager.initial 0 0 1 0 1 2 3 (by norm_num) (by norm_num)
     (by norm_num)⟩

/-! ## C1 — terrain chunk window -/

lemma chunkRange_length (c : ℤ) (n : ℕ) : (chunkRange c n).length = n := by
  rw [chunkRange, List.length_map, List.length_range]

lemma chunkRange_succ (c : ℤ) (n : ℕ) : chunkRange c (n + 1) = chunkRange c n ++ [c + n] := by
  rw [chunkRange, chunkRange, List.range_succ, List.map_append, List.map_cons, List.map_nil]

lemma chunkRange_cons (c : ℤ) (n : ℕ) : chunkRange c (n + 1) = c :: chunkRange (c + 1) n := by
  rw [chunkRange, chunkRange, List.range_succ_eq_map, List.map_cons, List.map_map]
  congr 1
  · norm_num
  · apply List.map_congr_left
    intro a _
    simp only [Function.comp_apply, Nat.succ_eq_add_one]
    push_cast
    ring

lemma chunkRange_tail (c : ℤ) (n : ℕ) : (chunkRange c (n + 1)).tail = chunkRange (c + 1) n := by
  rw [chunkRange_cons, List.tail_cons]

/-- `generateNextChunk` on a contiguous window extends the range by
one at the leading edge. -/
lemma generateNextChunk_chunkRange (c : ℤ) (n : ℕ) :
    Terrain.generateNextChunk ⟨c, chunkRange c n⟩ = ⟨c, chunkRange c (n + 1)⟩ := by
  simp only [Terrain.generateNextChunk, chunkRange_length, chunkRange_succ]

/-- `removeOldestChunk` on a contiguous window drops the trailing
chunk. -/
lemma removeOldestChunk_chunkRange (c : ℤ) (n : ℕ) :
    Terrain.removeOldestChunk ⟨c, chunkRange c (n + 1)⟩ = ⟨c + 1, chunkRange (c + 1) n⟩ := by
  simp only [Terrain.removeOldestChunk, chunkRange_tail]

/-- The chunk window of a contiguous state. -/
lemma goodWindow_mk (c : ℤ) (n : ℕ) (hlo : Terrain.visibleChunks ≤ n)
    (hhi : n ≤ Terrain.visibleChunks + 1) :
    Terrain.goodWindow ⟨c, chunkRange c n⟩ := by
  refine ⟨?_, ?_, ?_⟩ <;> simp only [Terrain.goodWindow, chunkRange_length]
  · exact hlo
  · exact hhi

/-- The initial chunk window satisfies the invariant. -/
lemma goodWindow_initial : Terrain.goodWindow Terrain.initial := by
  have h2 : (List.range Terrain.visibleChunks).map (fun i : ℕ => (i : ℤ)) =
      chunkRange 0 Terrain.visibleChunks := by
    simp only [chunkRange]
    apply List.map_congr_left
    intro a _
    simp
  unfold Terrain.initial
  rw [h2]
  exact goodWindow_mk 0 Terrain.visibleChunks (le_refl _) (by omega)

/-- Normal form of one terrain tick on a contiguous window. -/
lemma update_chunkRange (c : ℤ) (n : ℕ) (z : ℚ) :
    Terrain.update ⟨c, chunkRange c n⟩ z =
      if c + (n : ℤ) ≤ ⌊-z / Terrain.chunkSize⌋ + 3 then
        (if Terrain.visibleChunks < n + 1 ∧ c + 2 < ⌊-z / Terrain.chunkSize⌋ then
          ⟨c + 1, chunkRange (c + 1) n⟩
        else ⟨c, chunkRange c (n + 1)⟩)
      else
        (if Terrain.visibleChunks < n ∧ c + 2 < ⌊-z / Terrain.chunkSize⌋ then
          ⟨c + 1, (chunkRange c n).tail⟩
        else ⟨c, chunkRange c n⟩) := by
  simp only [Terrain.update, chunkRange_length]
  by_cases hg : c + (n : ℤ) ≤ ⌊-z / Terrain.chunkSize⌋ + 3
  · rw [if_pos hg, generateNextChunk_chunkRange]
    simp only [chunkRange_length]
    by_cases hsh : Terrain.visibleChunks < n + 1 ∧ c + 2 < ⌊-z / Terrain.chunkSize⌋
    · rw [if_pos hsh, removeOldestChunk_chunkRange, if_pos hg, if_pos hsh]
    · rw [if_neg hsh, if_pos hg, if_neg hsh]
  · rw [if_neg hg]
    simp only [chunkRange_length]
    by_cases hsh : Terrain.visibleChunks < n ∧ c + 2 < ⌊-z / Terrain.chunkSize⌋
    · rw [if_pos hsh, if_neg hg, if_pos hsh]
      simp only [Terrain.removeOldestChunk]
    · rw [if_neg hsh, if_neg hg, if_neg hsh]

/-- One terrain tick preserves the window invariant, never moves the
trailing edge backwards, and never moves the leading edge backwards
(so chunks are only appended ahead and only evicted behind). -/
lemma goodWindow_update (s : Terrain.State) (z : ℚ) (hs : Terrain.goodWindow s) :
    Terrain.goodWindow (Terrain.update s z) ∧
    s.currentChunkIndex ≤ (Terrain.update s z).currentChunkIndex ∧
    s.currentChunkIndex + s.terrainChunks.length ≤
      (Terrain.update s z).currentChunkIndex + (Terrain.update s z).terrainChunks.length := by
  obtain ⟨c, chunks⟩ := s
  obtain ⟨hrange, hlo, hhi⟩ := hs
  simp only at hrange hlo hhi ⊢
  generalize hn : chunks.length = n at hrange hlo hhi
  subst hrange
  simp only [Terrain.visibleChunks] at hlo hhi
  rw [update_chunkRange]
  split_ifs with hg hsh hsh
  · -- generate, then evict
    simp only [chunkRange_length]
    exact ⟨goodWindow_mk _ _ (by simp only [Terrain.visibleChunks]; omega)
      (by simp only [Terrain.visibleChunks]; omega), by omega, by omega⟩
  · -- generate only: the failed eviction guard bounds the window by 6
    simp only [Terrain.visibleChunks, not_and, not_lt] at hsh
    have hp : ⌊-z / Terrain.chunkSize⌋ ≤ c + 2 := hsh (by omega)
    simp only [chunkRange_length]
    exact ⟨goodWindow_mk _ _ (by simp only [Terrain.visibleChunks]; omega)
      (by simp only [Terrain.visibleChunks]; omega), by omega, by omega⟩
  · -- evict only
    simp only [Terrain.visibleChunks] at hsh
    obtain ⟨m, hm⟩ : ∃ m, n = m + 1 := ⟨n - 1, by omega⟩
    subst hm
    rw [chunkRange_tail]
    simp only [chunkRange_length]
    exact ⟨goodWindow_mk _ _ (by simp only [Terrain.visibleChunks]; omega)
      (by simp only [Terrain.visibleChunks]; omega), by omega, by omega⟩
  · -- nothing happens
    simp only [chunkRange_length]
    exact ⟨goodWindow_mk _ _ (by simp only [Terrain.visibleChunks]; omega)
      (by simp only [Terrain.visibleChunks]; omega), by omega, by omega⟩

/-- C1 counterexample: the warmed-up initial window holds exactly
`visibleChunks` chunks, but a single tick at `z = −1000`
(`playerChunkIndex = 2`) appends a sixth chunk without evicting one, so
the window length is not always exactly `visibleChunks`. -/
theorem terrain_window_size_exceeds_visible :
    Terrain.initial.terrainChunks.length = Terrain.visibleChunks ∧
    (Terrain.update Terrain.initial (-1000)).terrainChunks.length =
      Terrain.visibleChunks + 1 := by
  constructor
  · simp [Terrain.initial, Terrain.visibleChunks]
  · norm_num [Terrain.update, Terrain.initial, Terrain.generateNextChunk,
      Terrain.removeOldestChunk, Terrain.chunkSize, Terrain.visibleChunks]

/-- C1 (amended): after any sequence of ticks from the initial state,
the active chunk indices form the contiguous ascending range
`[currentChunkIndex, currentChunkIndex + count)` where `count` is
`visibleChunks` or `visibleChunks + 1` (a tick that generates without
evicting leaves `visibleChunks + 1` chunks); moreover each tick moves
the trailing and leading edges only forward, so chunks are appended
only at the advancing edge and evicted only from the trailing edge. -/
theorem terrain_window_contiguous (zs : List ℚ) (s : Terrain.State) (z : ℚ)
    (hs : Terrain.goodWindow s) :
    Terrain.goodWindow (zs.foldl Terrain.update Terrain.initial) ∧
    s.currentChunkIndex ≤ (Terrain.update s z).currentChunkIndex ∧
    s.currentChunkIndex + s.terrainChunks.length ≤
      (Terrain.update s z).currentChunkIndex + (Terrain.update s z).terrainChunks.length := by
  refine ⟨?_, (goodWindow_update s z hs).2.1, (goodWindow_update s z hs).2.2⟩
  suffices h : ∀ (l : List ℚ) (t : Terrain.State), Terrain.goodWindow t →
      Terrain.goodWindow (l.foldl Terrain.update t) from h zs Terrain.initial goodWindow_initial
  intro l
  induction l with
  | nil => exact fun t ht => ht
  | cons a l ih => exact fun t ht => ih _ (goodWindow_update t a ht).1

/-- C1 witness: the amended theorem at the empty tick list and the
initial state. -/
theorem terrain_window_contiguous_witness :
    Terrain.goodWindow Terrain.initial ∧
    (Terrain.goodWindow (([] : List ℚ).foldl Terrain.update Terrain.initial) ∧
     Terrain.initial.currentChunkIndex ≤ (Terrain.update Terrain.initial 0).currentChunkIndex ∧
     Terrain.initial.currentChunkIndex + Terrain.initial.terrainChunks.length ≤
       (Terrain.update Terrain.initial 0).currentChunkIndex +
         (Terrain.update Terrain.initial 0).terrainChunks.length) :=
  ⟨goodWindow_initial, terrain_window_contiguous [] Terrain.initial 0 goodWindow_initial⟩

/-! ## C5 — avoided counter -/

/-- The `forEach` of `checkObstaclesPassed` as a map plus a count. -/
lemma foldl_checkPassedStep (playerZ : ℚ) (l : List Obstacle) (acc : List Obstacle × ℕ) :
    l.foldl (ObstacleManager.checkPassedStep playerZ) acc =
      (acc.1 ++ l.map (ObstacleManager.markPassed playerZ),
       acc.2 + l.countP (ObstacleManager.newlyPassed playerZ)) := by
  induction l generalizing acc with
  | nil => simp
  | cons o l ih =>
    rw [List.foldl_cons, ih]
    by_cases h : o.isAvoidedCounted = false ∧ o.z > playerZ + 5
    · have hm : ObstacleManager.markPassed playerZ o = { o with isAvoidedCounted := true } := by
        simp [ObstacleManager.markPassed, h]
      have hn : ObstacleManager.newlyPassed playerZ o = true := by
        simp [ObstacleManager.newlyPassed, h]
      simp [ObstacleManager.checkPassedStep, if_pos h, hm, hn, List.append_assoc]
      omega
    · have hm : ObstacleManager.markPassed playerZ o = o := by
        simp [ObstacleManager.markPassed, h]
      have hn : ObstacleManager.newlyPassed playerZ o = false := by
        simp [ObstacleManager.newlyPassed, h]
      simp [ObstacleManager.checkPassedStep, if_neg h, hm, hn, List.append_assoc]

/-- Marking is idempotent on a single obstacle record. -/
lemma markPassed_idem (playerZ : ℚ) (o : Obstacle) :
    ObstacleManager.markPassed playerZ (ObstacleManager.markPassed playerZ o) =
      ObstacleManager.markPassed playerZ o := by
  simp only [ObstacleManager.markPassed]
  split_ifs with h1 h2 <;> simp_all

/-- A marked obstacle is never counted again. -/
lemma newlyPassed_markPassed (playerZ : ℚ) (o : Obstacle) :
    ObstacleManager.newlyPassed playerZ (ObstacleManager.markPassed playerZ o) = false := by
  simp only [ObstacleManager.newlyPassed, ObstacleManager.markPassed]
  split_ifs with h <;> simp_all

/-- `checkObstaclesPassed` is idempotent: a second pass with the same
player position flags nothing and adds nothing to the counter. -/
lemma checkObstaclesPassed_idem (s : ObstacleManager.State) (playerZ : ℚ) :
    ObstacleManager.checkObstaclesPassed (ObstacleManager.checkObstaclesPassed s playerZ)
      playerZ = ObstacleManager.checkObstaclesPassed s playerZ := by
  simp only [ObstacleManager.checkObstaclesPassed, foldl_checkPassedStep, List.nil_append]
  have hmap : (s.activeObstacles.map (ObstacleManager.markPassed playerZ)).map
      (ObstacleManager.markPassed playerZ) =
      s.activeObstacles.map (ObstacleManager.markPassed playerZ) := by
    rw [List.map_map]
    apply List.map_congr_left
    intro a _
    exact markPassed_idem playerZ a
  have hcount : (s.activeObstacles.map (ObstacleManager.markPassed playerZ)).countP
      (ObstacleManager.newlyPassed playerZ) = 0 := by
    rw [List.countP_eq_zero]
    intro a ha
    obtain ⟨b, _, rfl⟩ := List.mem_map.mp ha
    simp [newlyPassed_markPassed playerZ b]
  simp [hmap, hcount]

/-- `updateDifficulty` does not touch the avoided counter. -/
lemma updateDifficulty_avoided (s : ObstacleManager.State) (z : ℚ) :
    (ObstacleManager.updateDifficulty s z).obstaclesAvoided = s.obstaclesAvoided := rfl

/-- `removeDistantObstacles` does not touch the avoided counter. -/
lemma removeDistantObstacles_avoided (s : ObstacleManager.State) (z : ℚ) :
    (ObstacleManager.removeDistantObstacles s z).obstaclesAvoided = s.obstaclesAvoided := rfl

/-- `createObstacle` does not touch the avoided counter. -/
lemma createObstacle_avoided (s : ObstacleManager.State) (t : ℕ) (x z : ℚ) :
    (ObstacleManager.createObstacle s t x z).1.obstaclesAvoided = s.obstaclesAvoided := by
  simp only [ObstacleManager.createObstacle, ObstacleManager.getObstacleFromPool]
  cases h : s.obstaclePool.findIdx? (fun o => o.type == t) with
  | none => simp [h]
  | some i => simp [h]

/-- `generateObstacle` does not touch the avoided counter. -/
lemma generateObstacle_avoided (s : ObstacleManager.State) (z : ℚ) (o : SpawnOracle) :
    (ObstacleManager.generateObstacle s z o).obstaclesAvoided = s.obstaclesAvoided := by
  simp only [ObstacleManager.generateObstacle]
  split_ifs <;> simp [createObstacle_avoided]

/-- `checkObstaclesPassed` never decreases the avoided counter. -/
lemma checkObstaclesPassed_avoided_le (s : ObstacleManager.State) (z : ℚ) :
    s.obstaclesAvoided ≤ (ObstacleManager.checkObstaclesPassed s z).obstaclesAvoided := by
  simp only [ObstacleManager.checkObstaclesPassed, foldl_checkPassedStep, List.nil_append]
  omega

/-- C5: the avoided counter returned by `getObstaclesAvoided` never
decreases across a manager tick (any player position, any random
draws), and the flagging pass is idempotent — an already-flagged
obstacle is never counted a second time. -/
theorem obstaclesAvoided_monotone_idempotent (s : ObstacleManager.State) (playerZ : ℚ)
    (o : SpawnOracle) :
    ObstacleManager.getObstaclesAvoided s ≤
      ObstacleManager.getObstaclesAvoided (ObstacleManager.update s playerZ o) ∧
    ObstacleManager.checkObstaclesPassed (ObstacleManager.checkObstaclesPassed s playerZ)
      playerZ = ObstacleManager.checkObstaclesPassed s playerZ := by
  refine ⟨?_, checkObstaclesPassed_idem s playerZ⟩
  simp only [ObstacleManager.getObstaclesAvoided, ObstacleManager.update]
  have hspawn : ∀ t : ObstacleManager.State,
      (if ((t.activeObstacles.length : ℤ) < t.maxObstaclesOnScreen) then
        ObstacleManager.generateObstacle t playerZ o else t).obstaclesAvoided =
      t.obstaclesAvoided := by
    intro t
    split_ifs
    · exact generateObstacle_avoided t playerZ o
    · rfl
  calc s.obstaclesAvoided
      = (ObstacleManager.removeDistantObstacles
          (ObstacleManager.updateDifficulty s playerZ) playerZ).obstaclesAvoided := by
        rw [removeDistantObstacles_avoided, updateDifficulty_avoided]
    _ = _ := (hspawn _).symm
    _ ≤ _ := checkObstaclesPassed_avoided_le _ playerZ

/-! ## C9 — speed ramp -/

/-- Closed form of one player tick on a live, centred, input-free
state: only the speed ramp, the forward-velocity overwrite and the
groundedness refresh act. -/
lemma playerTick_ramp (v hq : ℚ) (j g : Bool) (w a : Vec3) (d : ℕ) :
    playerTick
      { speed := v, health := hq, isDead := false, moveLeft := false,
        moveRight := false, isJumping := j, isGrounded := g, pos := ⟨0, 5, 0⟩, vel := w,
        angVel := a, diedEvents := d } =
    { speed := min Player.maxSpeed (v + Player.acceleration), health := hq, isDead := false,
      moveLeft := false, moveRight := false, isJumping := j, isGrounded := false,
      pos := ⟨0, 5, 0⟩, vel := ⟨w.x, w.y, -(min Player.maxSpeed (v + Player.acceleration))⟩,
      angVel := a, diedEvents := d } := by
  simp only [playerTick, Player.update, Player.applyControls, Player.appliedLateralImpulse,
    Player.lateralForce, Player.updatePhysics, Player.checkTerrainCollision, rayMiss]
  norm_num

/-- The clamp commutes with the per-tick increment. -/
lemma min_ramp (a : ℚ) : min 300 (min 300 a + 1/5) = min 300 (a + 1/5) := by
  rcases le_total a 300 with h | h
  · rw [min_eq_right h]
  · rw [min_eq_left h, min_eq_left (by norm_num : (300:ℚ) ≤ 300 + 1/5),
      min_eq_left (by linarith)]

/-- Closed form of `n` player ticks from the reset state. -/
lemma iterate_playerTick (n : ℕ) :
    playerTick^[n] (Player.reset Player.initial) =
      { speed := min 300 (50 + (n : ℚ) * (1/5)), health := 100, isDead := false,
        moveLeft := false, moveRight := false, isJumping := false, isGrounded := false,
        pos := ⟨0, 5, 0⟩, vel := ⟨0, 0, -(min 300 (50 + (n : ℚ) * (1/5)))⟩,
        angVel := ⟨0, 0, 0⟩, diedEvents := 0 } := by
  induction n with
  | zero =>
    simp only [Function.iterate_zero, id_eq, Player.reset, Player.initial, Player.initialSpeed]
    norm_num
  | succ n ih =>
    rw [Function.iterate_succ_apply', ih, playerTick_ramp]
    simp only [Player.maxSpeed, Player.acceleration, min_ramp]
    have harith : (50 : ℚ) + n * (1/5) + 1/5 = 50 + (n + 1 : ℕ) * (1/5) := by
      push_cast
      ring
    rw [harith]

/-- C9: with `acceleration = 0.2`, `maxSpeed = 300` and
`initialSpeed = 50`, after exactly 1250 ticks from the reset state the
player's speed is exactly 300 — the clamp `min(maxSpeed, …)` holds it
there. -/
theorem speed_ramp_exact :
    (playerTick^[1250] (Player.reset Player.initial)).speed = 300 := by
  rw [iterate_playerTick]
  norm_num

/-! ## C4 — range of the fractal noise accessor -/

lemma abs_ite_neg (c : Prop) [Decidable c] (w : ℚ) : |if c then w else -w| = |w| := by
  split_ifs <;> simp

lemma fade_nonneg {t : ℚ} (h0 : 0 ≤ t) : 0 ≤ ImprovedNoise.fade t := by
  have key : ImprovedNoise.fade t = t^3 * (6*(t - 5/4)^2 + 5/8) := by
    unfold ImprovedNoise.fade
    ring
  rw [key]
  positivity

lemma fade_le_one {t : ℚ} (h0 : 0 ≤ t) (h1 : t ≤ 1) : ImprovedNoise.fade t ≤ 1 := by
  nlinarith [mul_nonneg (pow_nonneg (by linarith : (0:ℚ) ≤ 1 - t) 3)
      (by positivity : (0:ℚ) ≤ 6*t^2 + 3*t + 1),
    (by unfold ImprovedNoise.fade; ring :
      1 - ImprovedNoise.fade t = (1 - t)^3 * (6*t^2 + 3*t + 1))]

/-- `lerp` with a weight in `[0, 1]` stays inside any symmetric bound
on its endpoints. -/
lemma abs_lerp_le {a b t C : ℚ} (ha : |a| ≤ C) (hb : |b| ≤ C) (h0 : 0 ≤ t) (h1 : t ≤ 1) :
    |ImprovedNoise.lerp a b t| ≤ C := by
  rw [abs_le] at ha hb ⊢
  unfold ImprovedNoise.lerp
  constructor <;> nlinarith [ha.1, ha.2, hb.1, hb.2]

/-- Each gradient dot product is at most `|u| + |v| ≤ 2` for arguments
in `[-1, 1]`. -/
lemma abs_grad_le (hash : ℕ) {x y z : ℚ} (hx : |x| ≤ 1) (hy : |y| ≤ 1) (hz : |z| ≤ 1) :
    |ImprovedNoise.grad hash x y z| ≤ 2 := by
  unfold ImprovedNoise.grad
  have hu : |if hash % 16 < 8 then x else y| ≤ 1 := by split_ifs <;> assumption
  have hv : |if hash % 16 < 4 then y
      else if hash % 16 = 12 ∨ hash % 16 = 14 then x else z| ≤ 1 := by
    split_ifs <;> assumption
  refine le_trans (abs_add _ _) ?_
  rw [abs_ite_neg, abs_ite_neg]
  linarith

lemma frac_bounds (x : ℚ) :
    0 ≤ x - ⌊x⌋ ∧ x - ⌊x⌋ ≤ 1 ∧ |x - (⌊x⌋:ℚ)| ≤ 1 ∧ |x - ⌊x⌋ - 1| ≤ 1 := by
  have h1 := Int.floor_le x
  have h2 := Int.lt_floor_add_one x
  refine ⟨by linarith, by linarith, ?_, ?_⟩ <;> rw [abs_le] <;> constructor <;> linarith

/-- One Perlin sample lies in `[-2, 2]` (trilinear interpolation of
gradient values each bounded by 2). -/
lemma abs_noise_le (x y z : ℚ) : |ImprovedNoise.noise x y z| ≤ 2 := by
  obtain ⟨hx0, hx1, hxa, hxb⟩ := frac_bounds x
  obtain ⟨hy0, hy1, hya, hyb⟩ := frac_bounds y
  obtain ⟨hz0, hz1, hza, hzb⟩ := frac_bounds z
  have hfx0 := fade_nonneg hx0
  have hfx1 := fade_le_one hx0 hx1
  have hfy0 := fade_nonneg hy0
  have hfy1 := fade_le_one hy0 hy1
  have hfz0 := fade_nonneg hz0
  have hfz1 := fade_le_one hz0 hz1
  simp only [ImprovedNoise.noise]
  exact abs_lerp_le
    (abs_lerp_le
      (abs_lerp_le (abs_grad_le _ hxa hya hza) (abs_grad_le _ hxb hya hza) hfx0 hfx1)
      (abs_lerp_le (abs_grad_le _ hxa hyb hza) (abs_grad_le _ hxb hyb hza) hfx0 hfx1)
      hfy0 hfy1)
    (abs_lerp_le
      (abs_lerp_le (abs_grad_le _ hxa hya hzb) (abs_grad_le _ hxb hya hzb) hfx0 hfx1)
      (abs_lerp_le (abs_grad_le _ hxa hyb hzb) (abs_grad_le _ hxb hyb hzb) hfx0 hfx1)
      hfy0 hfy1)
    hfz0 hfz1

/-- Loop invariant of `generateNoise`: the running total is bounded by
twice the running amplitude sum, the amplitude stays positive, and the
amplitude sum never decreases. -/
lemma noiseLoop_bound (x y scale pers lac : ℚ) (hp : 0 < pers) (n : ℕ) :
    ∀ total freq amp maxV : ℚ, 0 < amp → |total| ≤ 2 * maxV →
      |(noiseLoop x y scale pers lac n (total, freq, amp, maxV)).1| ≤
        2 * (noiseLoop x y scale pers lac n (total, freq, amp, maxV)).2.2.2 ∧
      maxV ≤ (noiseLoop x y scale pers lac n (total, freq, amp, maxV)).2.2.2 := by
  induction n with
  | zero =>
    intro total freq amp maxV ha ht
    exact ⟨ht, le_refl _⟩
  | succ n ih =>
    intro total freq amp maxV ha ht
    rw [noiseLoop]
    have hnoise := abs_noise_le (x * freq / scale) (y * freq / scale) 0
    have hstep : |total + ImprovedNoise.noise (x * freq / scale) (y * freq / scale) 0 * amp| ≤
        2 * (maxV + amp) := by
      refine le_trans (abs_add _ _) ?_
      rw [abs_mul, abs_of_pos ha]
      nlinarith
    have h2 := ih _ (freq * lac) _ _ (mul_pos ha hp) hstep
    exact ⟨h2.1, le_trans (by linarith) h2.2⟩

set_option maxRecDepth 100000 in
/-- C4 counterexample: at `(x, y) = (50, 70)` with one octave,
persistence 0.5, lacunarity 2 and scale 100, `generateNoise` returns a
negative value, so its range is not contained in `[0, 1]`. -/
theorem generateNoise_negative_value :
    (generateNoise 50 70 1 (1/2) 2 100).getD 0 < 0 := by
  norm_num [generateNoise, noiseLoop, ImprovedNoise.noise, ImprovedNoise.fade,
    ImprovedNoise.lerp, ImprovedNoise.grad, pTab, permutation]

/-- C4 (amended): for `octaves ≥ 1` and `persistence > 0` the fractal
accessor returns some scalar in `[-2, 2]` — its Perlin samples are
signed, so the normalized sum is bounded but not confined to `[0, 1]`. -/
theorem generateNoise_range (x y : ℚ) (octaves : ℤ) (persistence lacunarity scale : ℚ)
    (h1 : 1 ≤ octaves) (hp : 0 < persistence) :
    ∃ v, generateNoise x y octaves persistence lacunarity scale = some v ∧
      -2 ≤ v ∧ v ≤ 2 := by
  obtain ⟨k, hk⟩ : ∃ k : ℕ, octaves.toNat = k + 1 := ⟨octaves.toNat - 1, by omega⟩
  unfold generateNoise
  rw [hk, noiseLoop]
  have hfirst : |(0:ℚ) + ImprovedNoise.noise (x * 1 / scale) (y * 1 / scale) 0 * 1| ≤
      2 * ((0:ℚ) + 1) := by
    simp only [zero_add, mul_one]
    exact abs_noise_le _ _ 0
  have hb := noiseLoop_bound x y scale persistence lacunarity hp k
    (0 + ImprovedNoise.noise (x * 1 / scale) (y * 1 / scale) 0 * 1) (1 * lacunarity)
    (1 * persistence) (0 + 1) (by linarith) hfirst
  set st := noiseLoop x y scale persistence lacunarity k
    (0 + ImprovedNoise.noise (x * 1 / scale) (y * 1 / scale) 0 * 1, 1 * lacunarity,
     1 * persistence, 0 + 1) with hst
  have hmax : (1:ℚ) ≤ st.2.2.2 := by
    have := hb.2
    linarith
  have hpos : (0:ℚ) < st.2.2.2 := by linarith
  rw [if_neg (by linarith)]
  refine ⟨st.1 / st.2.2.2, rfl, ?_, ?_⟩
  · rw [le_div_iff₀ hpos]
    have := (abs_le.mp hb.1).1
    linarith
  · rw [div_le_iff₀ hpos]
    have := (abs_le.mp hb.1).2
    linarith

/-- C4 witness: the amended theorem at `(0, 0)`, one octave,
persistence 1. -/
theorem generateNoise_range_witness :
    (1 : ℤ) ≤ 1 ∧ (0 : ℚ) < 1 ∧
    (∃ v, generateNoise 0 0 1 1 2 1 = some v ∧ -2 ≤ v ∧ v ≤ 2) :=
  ⟨le_refl 1, by norm_num, generateNoise_range 0 0 1 1 2 1 (le_refl 1) (by norm_num)⟩

end Skiing
